import Mathlib

/-!
Verification of the event-reconciliation core of `waybar-syncthing`
(`src/runner.rs`): a shallow embedding of the `Runner` state machine
(pending-transfer table, directory cache, watermark), its event
application, cache refresh, connection pruning, and the pure rendering
helpers, together with theorems settling the specification claims.

Rust `HashMap`s are embedded as association lists (`AMap`); the claims
under study only concern membership and looked-up values, never the
hash iteration order. Rust `f64` completion percentages are embedded
as `ℚ`: the code only compares them for exact equality against `100.0`
and applies `floor` / `{:.0}` rounding, all of which are exact on the
rationals involved.
-/

/-- Association map embedding of Rust's `HashMap`. -/
abbrev AMap (K V : Type) : Type := List (K × V)

namespace AMap

variable {K V : Type} [DecidableEq K]

/-- The empty map (`HashMap::new`). -/
def empty : AMap K V := []

/-- `HashMap::get`: value bound to the first occurrence of `k`. -/
def find? (m : AMap K V) (k : K) : Option V :=
  (List.find? (fun p => decide (p.1 = k)) m).map Prod.snd

/-- `HashMap::contains_key`. -/
def contains (m : AMap K V) (k : K) : Bool :=
  (find? m k).isSome

/-- `HashMap::insert`: overwrite the binding of `k` if present, else append. -/
def insert (m : AMap K V) (k : K) (v : V) : AMap K V :=
  match m with
  | [] => [(k, v)]
  | p :: t => if p.1 = k then (k, v) :: t else p :: insert t k v

/-- `HashMap::remove`: drop the binding of `k`. -/
def erase (m : AMap K V) (k : K) : AMap K V :=
  match m with
  | [] => []
  | p :: t => if p.1 = k then erase t k else p :: erase t k

/-- `Entry::and_modify`: apply `g` to the binding of `k` when present,
leave the map unchanged when absent. -/
def modify (m : AMap K V) (k : K) (g : V → V) : AMap K V :=
  List.map (fun p => if p.1 = k then (p.1, g p.2) else p) m

/-- `iterator.collect::<HashMap<_,_>>()`: fold the pairs into a map,
later duplicates overwriting earlier ones. -/
def ofList (l : List (K × V)) : AMap K V :=
  l.foldl (fun m p => insert m p.1 p.2) []

/-- Lookup directly on a raw pair list where the *last* occurrence of a
key wins — the reference semantics of `collect` into a `HashMap`. -/
def lookupLast (l : List (K × V)) (k : K) : Option V :=
  (List.find? (fun p => decide (p.1 = k)) l.reverse).map Prod.snd

end AMap

/-! ## The `Runner` data model (`src/runner.rs`)

`DeviceID`, `FolderID`, `DeviceName`, `FolderName` are newtypes over
`String` with string equality/hashing; they are embedded directly as
`String`. `ProgressPct` wraps an `f64` that the code only compares for
exact equality with `100.0`, floors, or `{:.0}`-rounds: it is embedded
as `ℚ`. `NeedBytes` wraps a `u64`, embedded as `ℕ`. -/

/-- `EventsResponseData`: the tagged event payload. -/
inductive EventsResponseData where
  | deviceDisconnected (id : String)
  | folderCompletion (completion : ℚ) (needBytes : ℕ)
      (device : String) (folder : String)
  deriving DecidableEq

/-- `EventsResponseEntry`: one event envelope with its daemon-assigned id. -/
structure EventsResponseEntry where
  id : ℕ
  data : EventsResponseData
  deriving DecidableEq

/-- `SystemConfigResponse`: `devices` is the list of
`(deviceID, name)` pairs, `folders` the list of `(id, label)` pairs. -/
structure SystemConfigResponse where
  devices : List (String × String)
  folders : List (String × String)
  deriving DecidableEq

/-- The mutable fields of `Runner` (the `ApiClient` handle carries no
reconciliation state and is left out). -/
structure RunnerState where
  devices : AMap String String
  folders : AMap String String
  pending : AMap String (AMap String (ℚ × ℕ))
  since : ℕ
  deriving DecidableEq

/-- `Runner::new`: empty caches, empty pending table, watermark 0. -/
def RunnerState.new : RunnerState :=
  { devices := AMap.empty, folders := AMap.empty
    pending := AMap.empty, since := 0 }

/-- One arm of the `for_each` match in `Runner::get_events`
(lines 62–88): apply a single event to the pending table. -/
def applyEvent (s : RunnerState) (e : EventsResponseData) : RunnerState :=
  match e with
  | .folderCompletion completion needBytes device folder =>
    if completion = 100 then
      { s with pending :=
          AMap.modify s.pending device (fun v => AMap.erase v folder) }
    else
      let row := (AMap.find? s.pending device).getD AMap.empty
      { s with pending :=
          AMap.insert s.pending device (AMap.insert row folder (completion, needBytes)) }
  | .deviceDisconnected id =>
    { s with pending := AMap.erase s.pending id }

/-- The whole `for_each` over the batch, in order. -/
def applyEvents (s : RunnerState) (response : List EventsResponseEntry) :
    RunnerState :=
  response.foldl (fun st entry => applyEvent st entry.data) s

/-- The scan computing `need_device_refresh` (lines 42–48). -/
def needDeviceRefresh (s : RunnerState)
    (response : List EventsResponseEntry) : Bool :=
  (response.filterMap (fun entry =>
      match entry.data with
      | .folderCompletion _ _ device _ => some device
      | _ => none)).any
    (fun item => !(AMap.contains s.devices item))

/-- The scan computing `need_folder_refresh` (lines 50–56). -/
def needFolderRefresh (s : RunnerState)
    (response : List EventsResponseEntry) : Bool :=
  (response.filterMap (fun entry =>
      match entry.data with
      | .folderCompletion _ _ _ folder => some folder
      | _ => none)).any
    (fun item => !(AMap.contains s.folders item))

/-- `Runner::refresh_devices_and_folders`: replace both cache maps
wholesale from the config response (`collect` of the pair lists). -/
def refreshDevicesAndFolders (s : RunnerState)
    (response : SystemConfigResponse) : RunnerState :=
  { s with devices := AMap.ofList response.devices
           folders := AMap.ofList response.folders }

/-- `Runner::refresh_connected_devices`: for every device of the
connections response with `connected == false`, remove its pending row. -/
def refreshConnectedDevices (s : RunnerState)
    (connections : List (String × Bool)) : RunnerState :=
  (connections.filter (fun p => !p.2)).foldl
    (fun st p => { st with pending := AMap.erase st.pending p.1 }) s

/-- Line 90: `self.since = response.last().map(|e| e.id).unwrap_or(self.since)`. -/
def advanceSince (s : RunnerState)
    (response : List EventsResponseEntry) : RunnerState :=
  { s with since := ((response.getLast?).map EventsResponseEntry.id).getD s.since }

/-- `Runner::get_events` on already-decoded responses: conditional
directory refresh, event application in order, watermark advance, then
the unconditional connection prune. -/
def getEvents (s : RunnerState) (response : List EventsResponseEntry)
    (config : SystemConfigResponse)
    (connections : List (String × Bool)) : RunnerState :=
  let s1 := if needDeviceRefresh s response || needFolderRefresh s response
            then refreshDevicesAndFolders s config else s
  refreshConnectedDevices (advanceSince (applyEvents s1 response) response)
    connections

/-- The externally visible steps of one `get_events` iteration, in the
order the source performs them: the events fetch (line 34), the
conditional config fetch inside `refresh_devices_and_folders`
(lines 58–60), the per-event mutation of the pending table (line 62),
and the connections fetch inside `refresh_connected_devices` (line 92). -/
inductive ApiCall where
  | fetchEvents
  | fetchConfig
  | applyEv (entry : EventsResponseEntry)
  | fetchConnections
  deriving DecidableEq

/-- The sequence of steps one `get_events` call performs on a decoded
batch, following the source order. -/
def getEventsCalls (s : RunnerState)
    (response : List EventsResponseEntry) : List ApiCall :=
  [ApiCall.fetchEvents]
    ++ (if needDeviceRefresh s response || needFolderRefresh s response
        then [ApiCall.fetchConfig] else [])
    ++ response.map ApiCall.applyEv
    ++ [ApiCall.fetchConnections]

/-- The error taxonomy of the loop body: `reqwest` transport errors and
JSON decode errors, both surfaced through `anyhow::Result` via `?`. -/
inductive ApiError where
  | transport
  | decode
  deriving DecidableEq

/-- The tail of `get_events` after the conditional refresh: apply the
batch, advance the watermark, then prune against the connections
response (which may itself fail, after the mutations already happened). -/
def getEventsRest (response : List EventsResponseEntry)
    (connRes : Except ApiError (List (String × Bool)))
    (s1 : RunnerState) : RunnerState × Option ApiError :=
  let s3 := advanceSince (applyEvents s1 response) response
  match connRes with
  | .error e => (s3, some e)
  | .ok connections => (refreshConnectedDevices s3 connections, none)

/-- `Runner::get_events` with fallible calls: each `?` returns the error
to the caller immediately, leaving whatever `self` mutations already
happened in place. The pair's second component is the propagated error,
`none` on success. -/
def getEventsE (s : RunnerState)
    (evRes : Except ApiError (List EventsResponseEntry))
    (cfgRes : Except ApiError SystemConfigResponse)
    (connRes : Except ApiError (List (String × Bool))) :
    RunnerState × Option ApiError :=
  match evRes with
  | .error e => (s, some e)
  | .ok response =>
    if needDeviceRefresh s response || needFolderRefresh s response then
      match cfgRes with
      | .error e => (s, some e)
      | .ok config =>
        getEventsRest response connRes (refreshDevicesAndFolders s config)
    else
      getEventsRest response connRes s

/-- The decoded responses consumed by one loop iteration. -/
structure IterInput where
  evRes : Except ApiError (List EventsResponseEntry)
  cfgRes : Except ApiError SystemConfigResponse
  connRes : Except ApiError (List (String × Bool))

/-- `Runner::main_loop` on a finite schedule of per-iteration responses:
`self.get_events()?` ends the loop at the first error (the `?` rethrows
it out of `main_loop`), otherwise the loop continues. -/
def mainLoop (s : RunnerState) :
    List IterInput → RunnerState × Option ApiError
  | [] => (s, none)
  | i :: rest =>
    match getEventsE s i.evRes i.cfgRes i.connRes with
    | (s1, some e) => (s1, some e)
    | (s1, none) => mainLoop s1 rest

/-- Completion percentages the daemon contract delivers: `[0, 100]`. -/
def EventBounded : EventsResponseData → Prop
  | .folderCompletion completion _ _ _ => 0 ≤ completion ∧ completion ≤ 100
  | .deviceDisconnected _ => True

instance : DecidablePred EventBounded := fun e =>
  match e with
  | .folderCompletion completion _ _ _ =>
    inferInstanceAs (Decidable (0 ≤ completion ∧ completion ≤ 100))
  | .deviceDisconnected _ => inferInstanceAs (Decidable True)

/-- Every event of the batch is in bounds. -/
def BatchBounded (response : List EventsResponseEntry) : Prop :=
  ∀ entry ∈ response, EventBounded entry.data

instance (response : List EventsResponseEntry) :
    Decidable (BatchBounded response) :=
  inferInstanceAs (Decidable (∀ entry ∈ response, EventBounded entry.data))

/-- States reachable from `Runner::new` by whole reconcile iterations
whose event batches respect the daemon's completion bounds. -/
inductive Reachable : RunnerState → Prop
  | new : Reachable RunnerState.new
  | step (s : RunnerState) (response : List EventsResponseEntry)
      (config : SystemConfigResponse)
      (connections : List (String × Bool)) :
      Reachable s → BatchBounded response →
      Reachable (getEvents s response config connections)

/-- Completion of a (device, folder) entry of the pending table. -/
def pendingLookup (s : RunnerState) (d f : String) : Option (ℚ × ℕ) :=
  (AMap.find? s.pending d).bind (fun row => AMap.find? row f)

/-- Every entry of the pending table has completion strictly below 100. -/
def Below100 (s : RunnerState) : Prop :=
  ∀ d row, AMap.find? s.pending d = some row →
    ∀ f c nb, AMap.find? row f = some (c, nb) → c < 100

/-! ## Rendering (`Runner::print_status` and the `Display` impls)

The glyph in the status token is the three-codepoint sequence
U+00EF U+2039 U+00B1 present verbatim in the source string literal. -/

/-- The icon prefix of each status token. -/
def glyph : String := "ï‹±"

/-- Round to the nearest integer, ties to even — the rounding Rust's
float formatting `{:.0}` / `{:.2}` applies. -/
def roundHalfEven (q : ℚ) : ℤ :=
  if q - ⌊q⌋ < 1/2 then ⌊q⌋
  else if 1/2 < q - ⌊q⌋ then ⌊q⌋ + 1
  else if ⌊q⌋ % 2 = 0 then ⌊q⌋ else ⌊q⌋ + 1

/-- `impl fmt::Display for ProgressPct`: `write!(f, "{}", self.0.floor())`.
For the in-range values at hand `floor` is integral and Rust prints it
without a decimal point, i.e. as the decimal numeral of `⌊c⌋`. -/
def ProgressPct.display (c : ℚ) : String := toString ⌊c⌋

/-- The `{:.0}` formatting of the completion in the tooltip line. -/
def fmtDot0 (c : ℚ) : String := toString (roundHalfEven c)

/-- The `format_number` closure in `impl fmt::Display for NeedBytes`:
integral values with 0 decimals, fractional ones with 2 decimals
(non-negative inputs only, as produced by the byte division). -/
def formatNumber (value : ℚ) : String :=
  if value.den = 1 then toString value.num
  else
    let r := roundHalfEven (value * 100)
    let frac := r % 100
    toString (r / 100) ++ "." ++ (if frac < 10 then "0" else "") ++ toString frac

/-- `impl fmt::Display for NeedBytes`: GiB when at least one GiB, else
MiB (exact rational division; the `f64` division in the source is exact
for counts below 2^53). -/
def NeedBytes.display (nb : ℕ) : String :=
  let bytesInMiB : ℕ := 1024 * 1024
  let bytesInGiB : ℕ := 1024 * 1024 * 1024
  if nb ≥ bytesInGiB then
    formatNumber ((nb : ℚ) / (bytesInGiB : ℚ)) ++ " GiB"
  else
    formatNumber ((nb : ℚ) / (bytesInMiB : ℚ)) ++ " MiB"

/-- `{:<10}`: left-align, pad with spaces to 10 characters. -/
def padTo10 (str : String) : String :=
  str ++ String.mk (List.replicate (10 - str.length) ' ')

/-- The `text` field built by `Runner::print_status`: one token per
pending (device, folder) entry, joined by `" | "`. -/
def statusText (s : RunnerState) : String :=
  String.intercalate " | "
    ((s.pending.map (fun p =>
      p.2.map (fun q =>
        glyph ++ " " ++ ProgressPct.display q.2.1 ++ "%/"
          ++ NeedBytes.display q.2.2))).flatten)

/-- The `tooltip` field built by `Runner::print_status`: one line per
pending entry with name lookups falling back to the raw id. -/
def tooltipText (s : RunnerState) : String :=
  String.intercalate "\n"
    ((s.pending.map (fun p =>
      let deviceName := (AMap.find? s.devices p.1).getD p.1
      p.2.map (fun q =>
        let folderName := (AMap.find? s.folders q.1).getD q.1
        padTo10 (deviceName ++ ":") ++ " " ++ padTo10 folderName
          ++ " (" ++ fmtDot0 q.2.1 ++ "%, " ++ NeedBytes.display q.2.2 ++ ")"))).flatten)

namespace AMap

variable {K V : Type} [DecidableEq K]

theorem find?_nil (k : K) : find? (V := V) [] k = none := rfl

theorem find?_cons (p : K × V) (t : List (K × V)) (k : K) :
    find? (p :: t) k = if p.1 = k then some p.2 else find? t k := by
  by_cases h : p.1 = k
  · simp [find?, List.find?_cons_of_pos, h]
  · simp [find?, List.find?_cons_of_neg, h]

theorem find?_insert_self (m : AMap K V) (k : K) (v : V) :
    find? (insert m k v) k = some v := by
  induction m with
  | nil => simp [insert, find?_cons]
  | cons p t ih =>
    by_cases h : p.1 = k
    · simp [insert, h, find?_cons]
    · simp [insert, h, find?_cons, ih]

theorem find?_insert_ne (m : AMap K V) (k k' : K) (v : V) (h : k' ≠ k) :
    find? (insert m k v) k' = find? m k' := by
  induction m with
  | nil => simp [insert, find?_cons, find?_nil, Ne.symm h]
  | cons p t ih =>
    by_cases hp : p.1 = k
    · rw [insert]
      simp only [hp, if_true, find?_cons, hp]
      simp [Ne.symm h]
    · rw [insert]
      simp only [hp, if_false, find?_cons, ih]

theorem find?_erase_self (m : AMap K V) (k : K) :
    find? (erase m k) k = none := by
  induction m with
  | nil => simp [erase, find?_nil]
  | cons p t ih =>
    by_cases h : p.1 = k
    · simp [erase, h, ih]
    · simp [erase, h, find?_cons, ih]

theorem find?_erase_ne (m : AMap K V) (k k' : K) (h : k' ≠ k) :
    find? (erase m k) k' = find? m k' := by
  induction m with
  | nil => simp [erase]
  | cons p t ih =>
    by_cases hp : p.1 = k
    · have hk' : ¬(k = k') := fun hc => h hc.symm
      simp [erase, hp, find?_cons, hk', ih]
    · simp [erase, hp, find?_cons, ih]

theorem modify_cons (p : K × V) (t : List (K × V)) (k : K) (g : V → V) :
    modify (p :: t) k g
      = (if p.1 = k then (p.1, g p.2) else p) :: modify t k g := rfl

theorem find?_modify_self (m : AMap K V) (k : K) (g : V → V) :
    find? (modify m k g) k = (find? m k).map g := by
  induction m with
  | nil => simp [modify, find?_nil]
  | cons p t ih =>
    by_cases h : p.1 = k
    · simp [modify_cons, h, find?_cons]
    · simp [modify_cons, h, find?_cons, ih]

theorem find?_modify_ne (m : AMap K V) (k k' : K) (g : V → V) (h : k' ≠ k) :
    find? (modify m k g) k' = find? m k' := by
  induction m with
  | nil => simp [modify]
  | cons p t ih =>
    by_cases hp : p.1 = k
    · have hk' : ¬(k = k') := fun hc => h hc.symm
      simp [modify_cons, hp, find?_cons, hk', ih]
    · simp [modify_cons, hp, find?_cons, ih]

theorem modify_absent (m : AMap K V) (k : K) (g : V → V)
    (h : find? m k = none) : modify m k g = m := by
  induction m with
  | nil => simp [modify]
  | cons p t ih =>
    rw [find?_cons] at h
    by_cases hp : p.1 = k
    · simp [hp] at h
    · simp [hp] at h
      simp [modify_cons, hp, ih h]

theorem lookupLast_cons (p : K × V) (t : List (K × V)) (k : K) :
    lookupLast (p :: t) k
      = (lookupLast t k).orElse (fun _ => if p.1 = k then some p.2 else none) := by
  simp only [lookupLast, List.reverse_cons, List.find?_append]
  cases List.find? (fun q => decide (q.1 = k)) t.reverse with
  | none =>
    by_cases h : p.1 = k <;> simp [List.find?, h, Option.orElse]
  | some q => simp [Option.orElse]

theorem find?_foldl_insert (l : List (K × V)) (m : AMap K V) (k : K) :
    find? (l.foldl (fun m p => insert m p.1 p.2) m) k
      = (lookupLast l k).orElse (fun _ => find? m k) := by
  induction l generalizing m with
  | nil => simp [lookupLast, Option.orElse]
  | cons p t ih =>
    simp only [List.foldl_cons, ih, lookupLast_cons]
    cases hl : lookupLast t k with
    | some v => simp [Option.orElse]
    | none =>
      by_cases hk : p.1 = k
      · subst hk
        simp [Option.orElse, find?_insert_self]
      · simp [Option.orElse, hk, find?_insert_ne m p.1 k p.2 (Ne.symm hk)]

/-- Lookup in a `collect`ed map is last-occurrence lookup in the pair list. -/
theorem find?_ofList (l : List (K × V)) (k : K) :
    find? (ofList l) k = lookupLast l k := by
  have h := find?_foldl_insert l ([] : AMap K V) k
  cases hl : lookupLast l k with
  | some v => simpa [ofList, hl, Option.orElse] using h
  | none => simpa [ofList, hl, Option.orElse, find?] using h

end AMap

namespace AMap

variable {K V : Type} [DecidableEq K]

theorem find?_erase_subset (m : AMap K V) (k k' : K) (w : V)
    (h : find? (erase m k) k' = some w) : find? m k' = some w := by
  by_cases hk : k' = k
  · rw [hk, find?_erase_self] at h
    exact absurd h (by simp)
  · rwa [find?_erase_ne m k k' hk] at h

theorem find?_insert_cases (m : AMap K V) (k k' : K) (v w : V)
    (h : find? (insert m k v) k' = some w) :
    (k' = k ∧ w = v) ∨ find? m k' = some w := by
  by_cases hk : k' = k
  · rw [hk, find?_insert_self] at h
    exact Or.inl ⟨hk, (Option.some_injective _ h).symm⟩
  · rw [find?_insert_ne m k k' v hk] at h
    exact Or.inr h

end AMap

theorem applyEvent_since (s : RunnerState) (e : EventsResponseData) :
    (applyEvent s e).since = s.since := by
  cases e with
  | folderCompletion completion needBytes device folder =>
    by_cases h : completion = 100 <;> simp [applyEvent, h]
  | deviceDisconnected id => simp [applyEvent]

theorem applyEvents_since (s : RunnerState)
    (response : List EventsResponseEntry) :
    (applyEvents s response).since = s.since := by
  induction response generalizing s with
  | nil => rfl
  | cons entry rest ih =>
    simp [applyEvents] at ih ⊢
    rw [ih, applyEvent_since]

theorem refreshConnectedDevices_since (s : RunnerState)
    (connections : List (String × Bool)) :
    (refreshConnectedDevices s connections).since = s.since := by
  rw [refreshConnectedDevices]
  generalize connections.filter (fun p => !p.2) = l
  induction l generalizing s with
  | nil => rfl
  | cons p rest ih => simp [List.foldl_cons, ih]

theorem pruneFold_find? (l : List (String × Bool)) (s : RunnerState)
    (d : String) :
    AMap.find?
      ((l.foldl (fun st p => { st with pending := AMap.erase st.pending p.1 }) s).pending)
      d
      = if l.any (fun p => p.1 = d) then none else AMap.find? s.pending d := by
  induction l generalizing s with
  | nil => simp
  | cons p rest ih =>
    rw [List.foldl_cons, ih]
    by_cases hd : p.1 = d
    · subst hd
      by_cases hr : rest.any (fun q => q.1 = p.1) = true
      · simp [hr]
      · simp [hr, AMap.find?_erase_self]
    · by_cases hr : rest.any (fun q => q.1 = d) = true
      · simp [hd, hr]
      · simp [hd, hr, AMap.find?_erase_ne s.pending p.1 d (fun hc => hd hc.symm)]

theorem refreshConnectedDevices_find? (s : RunnerState)
    (connections : List (String × Bool)) (d : String) :
    AMap.find? (refreshConnectedDevices s connections).pending d
      = if connections.any (fun p => p.1 = d ∧ p.2 = false) then none
        else AMap.find? s.pending d := by
  rw [refreshConnectedDevices, pruneFold_find?]
  congr 1
  simp [List.any_filter, Bool.and_comm]

/-- **C1**: applying a `FolderCompletion` event with completion exactly
`100.0` for a `(device, folder)` pair currently pending removes exactly
that folder's entry from that device's row, changes no other entry of
any device, and leaves the device's row present (empty when the removed
folder was its last). -/
theorem folderCompletion100_removes_exactly (s : RunnerState)
    (d f : String) (nb : ℕ) (hp : pendingLookup s d f ≠ none) :
    pendingLookup (applyEvent s (.folderCompletion 100 nb d f)) d f = none
    ∧ (∀ d' f' : String, d' ≠ d ∨ f' ≠ f →
        pendingLookup (applyEvent s (.folderCompletion 100 nb d f)) d' f'
          = pendingLookup s d' f')
    ∧ (∃ row, AMap.find?
        (applyEvent s (.folderCompletion 100 nb d f)).pending d = some row)
    ∧ ((∀ f', f' ≠ f → pendingLookup s d f' = none) →
        ∀ row, AMap.find?
            (applyEvent s (.folderCompletion 100 nb d f)).pending d = some row →
          ∀ f'', AMap.find? row f'' = none) := by
  cases hrow : AMap.find? s.pending d with
  | none => exact absurd (by simp [pendingLookup, hrow]) hp
  | some row =>
    have hpend : (applyEvent s (.folderCompletion 100 nb d f)).pending
        = AMap.modify s.pending d (fun v => AMap.erase v f) := by
      simp [applyEvent]
    have hd' : AMap.find?
        (applyEvent s (.folderCompletion 100 nb d f)).pending d
        = some (AMap.erase row f) := by
      rw [hpend, AMap.find?_modify_self, hrow]
      rfl
    refine ⟨?_, ?_, ⟨AMap.erase row f, hd'⟩, ?_⟩
    · simp [pendingLookup, hd', AMap.find?_erase_self]
    · intro d' f' hne
      by_cases hdd : d' = d
      · subst hdd
        rcases hne with hne | hne
        · exact absurd rfl hne
        · simp [pendingLookup, hd', hrow, AMap.find?_erase_ne row f f' hne]
      · simp [pendingLookup, hpend,
          AMap.find?_modify_ne s.pending d d' _ hdd]
    · intro hlast row' hrow' f''
      rw [hd'] at hrow'
      cases Option.some_injective _ hrow'
      by_cases hff : f'' = f
      · rw [hff]
        exact AMap.find?_erase_self row f
      · rw [AMap.find?_erase_ne row f f'' hff]
        have := hlast f'' hff
        simpa [pendingLookup, hrow] using this

/-- Witness for C1 at a concrete two-device state. -/
theorem folderCompletion100_removes_exactly_witness :
    pendingLookup
        (applyEvent
          ⟨[], [], [("D", [("F", ((50 : ℚ), 10)), ("G", ((25 : ℚ), 5))]),
            ("E", [("H", ((75 : ℚ), 7))])], 0⟩
          (.folderCompletion 100 0 "D" "F")) "D" "F" = none
    ∧ pendingLookup
        (applyEvent
          ⟨[], [], [("D", [("F", ((50 : ℚ), 10)), ("G", ((25 : ℚ), 5))]),
            ("E", [("H", ((75 : ℚ), 7))])], 0⟩
          (.folderCompletion 100 0 "D" "F")) "E" "H"
      = pendingLookup
          ⟨[], [], [("D", [("F", ((50 : ℚ), 10)), ("G", ((25 : ℚ), 5))]),
            ("E", [("H", ((75 : ℚ), 7))])], 0⟩ "E" "H" :=
  ⟨(folderCompletion100_removes_exactly _ "D" "F" 0 (by decide)).1,
   (folderCompletion100_removes_exactly _ "D" "F" 0 (by decide)).2.1 "E" "H"
     (Or.inl (by decide))⟩

/-- **C10**: a `FolderCompletion` event with completion exactly `100.0`
for a device with no pending row leaves the whole state unchanged —
no empty row is created (`Entry::and_modify` does not insert). -/
theorem folderCompletion100_absent_noop (s : RunnerState)
    (d f : String) (nb : ℕ) (h : AMap.find? s.pending d = none) :
    applyEvent s (.folderCompletion 100 nb d f) = s := by
  simp [applyEvent, AMap.modify_absent s.pending d _ h]

/-- Witness for C10: completing an unknown device's folder is a no-op. -/
theorem folderCompletion100_absent_noop_witness :
    applyEvent
        ⟨[], [], [("E", [("H", ((75 : ℚ), 7))])], 3⟩
        (.folderCompletion 100 42 "D" "F")
      = ⟨[], [], [("E", [("H", ((75 : ℚ), 7))])], 3⟩ :=
  folderCompletion100_absent_noop _ "D" "F" 42 (by decide)

/-- **C4**: a `DeviceDisconnected` event removes the device's entire
pending row (and touches no other device's row), including when the
event is the last of a batch whose earlier events gave folders of that
device partial-completion updates. -/
theorem deviceDisconnected_removes_row (s : RunnerState) (d : String)
    (pre : List EventsResponseEntry) (i : ℕ) :
    AMap.find? (applyEvent s (.deviceDisconnected d)).pending d = none
    ∧ (∀ d', d' ≠ d →
        AMap.find? (applyEvent s (.deviceDisconnected d)).pending d'
          = AMap.find? s.pending d')
    ∧ AMap.find?
        (applyEvents s (pre ++ [⟨i, .deviceDisconnected d⟩])).pending d
      = none := by
  refine ⟨?_, ?_, ?_⟩
  · simp [applyEvent, AMap.find?_erase_self]
  · intro d' hne
    simp [applyEvent, AMap.find?_erase_ne s.pending d d' hne]
  · have happ : applyEvents s (pre ++ [⟨i, .deviceDisconnected d⟩])
        = applyEvent (applyEvents s pre) (.deviceDisconnected d) := by
      simp [applyEvents, List.foldl_append]
    rw [happ]
    simp [applyEvent, AMap.find?_erase_self]

/-- Witness for C4: the disconnect wipes the row even though a
partial completion for the same device came earlier in the batch. -/
theorem deviceDisconnected_removes_row_witness :
    AMap.find?
        (applyEvents
          ⟨[], [], [("D", [("F", ((50 : ℚ), 10))])], 0⟩
          ([⟨1, .folderCompletion 30 5 "D" "F"⟩]
            ++ [⟨2, .deviceDisconnected "D"⟩])).pending "D" = none
    ∧ AMap.find?
        (applyEvent
          ⟨[], [], [("D", [("F", ((50 : ℚ), 10))]), ("E", [])], 0⟩
          (.deviceDisconnected "D")).pending "E"
      = AMap.find?
          (⟨[], [], [("D", [("F", ((50 : ℚ), 10))]), ("E", [])], 0⟩
            : RunnerState).pending "E" :=
  ⟨(deviceDisconnected_removes_row _ "D"
      [⟨1, .folderCompletion 30 5 "D" "F"⟩] 2).2.2,
   (deviceDisconnected_removes_row _ "D" [] 0).2.1 "E" (by decide)⟩

/-- **C5**: the connection prune removes a device's row exactly when the
connections response reports it with `connected == false`; devices
absent from the response, and devices reported connected, keep their
row untouched. -/
theorem connectionPruning_iff (s : RunnerState)
    (connections : List (String × Bool)) :
    (∀ d, (d, false) ∈ connections →
        AMap.find? (refreshConnectedDevices s connections).pending d = none)
    ∧ (∀ d, (∀ b, (d, b) ∈ connections → b = true) →
        AMap.find? (refreshConnectedDevices s connections).pending d
          = AMap.find? s.pending d) := by
  constructor
  · intro d hmem
    rw [refreshConnectedDevices_find?]
    have : connections.any (fun p => p.1 = d ∧ p.2 = false) = true := by
      simp only [List.any_eq_true]
      exact ⟨(d, false), hmem, by simp⟩
    rw [if_pos this]
  · intro d hall
    rw [refreshConnectedDevices_find?]
    have : ¬(connections.any (fun p => p.1 = d ∧ p.2 = false) = true) := by
      simp only [List.any_eq_true]
      rintro ⟨p, hp, hcond⟩
      simp only [decide_eq_true_eq] at hcond
      obtain ⟨hd, hfalse⟩ := hcond
      have hmem : (d, p.2) ∈ connections := by
        rw [← hd]
        exact hp
      rw [hall p.2 hmem] at hfalse
      exact Bool.noConfusion hfalse
    rw [if_neg this]

/-- Witness for C5: `A` reported disconnected loses its row, `B`
reported connected and `C` absent from the response keep theirs. -/
theorem connectionPruning_iff_witness :
    AMap.find?
        (refreshConnectedDevices
          ⟨[], [], [("A", [("F", ((10 : ℚ), 1))]), ("B", [("G", ((20 : ℚ), 2))]),
            ("C", [("H", ((30 : ℚ), 3))])], 0⟩
          [("A", false), ("B", true)]).pending "A" = none
    ∧ AMap.find?
        (refreshConnectedDevices
          ⟨[], [], [("A", [("F", ((10 : ℚ), 1))]), ("B", [("G", ((20 : ℚ), 2))]),
            ("C", [("H", ((30 : ℚ), 3))])], 0⟩
          [("A", false), ("B", true)]).pending "C"
      = AMap.find?
          (⟨[], [], [("A", [("F", ((10 : ℚ), 1))]), ("B", [("G", ((20 : ℚ), 2))]),
            ("C", [("H", ((30 : ℚ), 3))])], 0⟩ : RunnerState).pending "C"
    ∧ AMap.find?
        (refreshConnectedDevices
          ⟨[], [], [("A", [("F", ((10 : ℚ), 1))]), ("B", [("G", ((20 : ℚ), 2))]),
            ("C", [("H", ((30 : ℚ), 3))])], 0⟩
          [("A", false), ("B", true)]).pending "B"
      = AMap.find?
          (⟨[], [], [("A", [("F", ((10 : ℚ), 1))]), ("B", [("G", ((20 : ℚ), 2))]),
            ("C", [("H", ((30 : ℚ), 3))])], 0⟩ : RunnerState).pending "B" :=
  ⟨(connectionPruning_iff _ _).1 "A" (by decide),
   (connectionPruning_iff _ _).2 "C" (by intro b hb; simp at hb),
   (connectionPruning_iff _ _).2 "B" (by
      intro b hb
      simp only [List.mem_cons, List.not_mem_nil, or_false,
        Prod.mk.injEq] at hb
      rcases hb with ⟨h1, h2⟩ | ⟨h1, h2⟩
      · exact absurd h1 (by decide)
      · exact h2)⟩

/-- **C7**: a directory-cache refresh replaces both mappings wholesale:
afterwards every lookup in the device cache is exactly the lookup in
the map derived from the response's `devices` list (last occurrence
winning, as `collect` into a `HashMap` does), likewise for folders, and
any previously cached key not present in the response is gone. -/
theorem configRefresh_wholesale (s : RunnerState)
    (response : SystemConfigResponse) :
    (∀ k, AMap.find? (refreshDevicesAndFolders s response).devices k
        = AMap.lookupLast response.devices k)
    ∧ (∀ k, AMap.find? (refreshDevicesAndFolders s response).folders k
        = AMap.lookupLast response.folders k)
    ∧ (∀ k, AMap.lookupLast response.devices k = none →
        AMap.find? (refreshDevicesAndFolders s response).devices k = none)
    ∧ (∀ k, AMap.lookupLast response.folders k = none →
        AMap.find? (refreshDevicesAndFolders s response).folders k = none) := by
  refine ⟨?_, ?_, ?_, ?_⟩
  · intro k
    simp [refreshDevicesAndFolders, AMap.find?_ofList]
  · intro k
    simp [refreshDevicesAndFolders, AMap.find?_ofList]
  · intro k h
    simp [refreshDevicesAndFolders, AMap.find?_ofList, h]
  · intro k h
    simp [refreshDevicesAndFolders, AMap.find?_ofList, h]

/-- Witness for C7: a stale device entry `X` vanishes after a refresh
whose response does not mention it; the response's entries land. -/
theorem configRefresh_wholesale_witness :
    AMap.find?
        (refreshDevicesAndFolders
          ⟨[("X", "old"), ("D1", "older")], [("Y", "oldf")], [], 0⟩
          ⟨[("D1", "dev"), ("D1", "dev2")], [("F1", "fold")]⟩).devices "X"
      = none
    ∧ AMap.find?
        (refreshDevicesAndFolders
          ⟨[("X", "old"), ("D1", "older")], [("Y", "oldf")], [], 0⟩
          ⟨[("D1", "dev"), ("D1", "dev2")], [("F1", "fold")]⟩).devices "D1"
      = some "dev2"
    ∧ AMap.find?
        (refreshDevicesAndFolders
          ⟨[("X", "old"), ("D1", "older")], [("Y", "oldf")], [], 0⟩
          ⟨[("D1", "dev"), ("D1", "dev2")], [("F1", "fold")]⟩).folders "Y"
      = none :=
  ⟨(configRefresh_wholesale _ _).2.2.1 "X" (by decide),
   by
    rw [(configRefresh_wholesale
      ⟨[("X", "old"), ("D1", "older")], [("Y", "oldf")], [], 0⟩
      ⟨[("D1", "dev"), ("D1", "dev2")], [("F1", "fold")]⟩).1 "D1"]
    decide,
   (configRefresh_wholesale _ _).2.2.2 "Y" (by decide)⟩

theorem refreshDevicesAndFolders_since (s : RunnerState)
    (response : SystemConfigResponse) :
    (refreshDevicesAndFolders s response).since = s.since := rfl

theorem getEvents_since (s : RunnerState)
    (response : List EventsResponseEntry) (config : SystemConfigResponse)
    (connections : List (String × Bool)) :
    (getEvents s response config connections).since
      = ((response.getLast?).map EventsResponseEntry.id).getD s.since := by
  rw [getEvents]
  rw [refreshConnectedDevices_since]
  show ((response.getLast?).map EventsResponseEntry.id).getD _ = _
  rw [applyEvents_since]
  by_cases h : needDeviceRefresh s response || needFolderRefresh s response
  · rw [if_pos h, refreshDevicesAndFolders_since]
  · rw [if_neg h]

/-- **C3**: after reconciling a non-empty batch the watermark equals
the id of the batch's last event; an empty batch leaves it unchanged;
under the daemon's ordering contract (every delivered id strictly above
the current watermark) the watermark never decreases. -/
theorem watermark_advance (s : RunnerState)
    (response : List EventsResponseEntry) (config : SystemConfigResponse)
    (connections : List (String × Bool)) :
    (∀ h : response ≠ [],
        (getEvents s response config connections).since
          = (response.getLast h).id)
    ∧ (response = [] →
        (getEvents s response config connections).since = s.since)
    ∧ ((∀ entry ∈ response, s.since < entry.id) →
        s.since ≤ (getEvents s response config connections).since) := by
  refine ⟨?_, ?_, ?_⟩
  · intro h
    rw [getEvents_since, List.getLast?_eq_getLast_of_ne_nil h]
    rfl
  · intro h
    subst h
    rw [getEvents_since]
    rfl
  · intro hgt
    by_cases h : response = []
    · subst h
      rw [getEvents_since]
      simp
    · rw [getEvents_since, List.getLast?_eq_getLast_of_ne_nil h]
      exact le_of_lt (hgt _ (List.getLast_mem h))

/-- Witness for C3: a two-event batch moves the watermark from 5 to 9;
an empty batch leaves it at 5. -/
theorem watermark_advance_witness :
    (getEvents ⟨[], [], [], 5⟩
        [⟨7, .deviceDisconnected "D"⟩, ⟨9, .deviceDisconnected "E"⟩]
        ⟨[], []⟩ []).since
      = (([⟨7, .deviceDisconnected "D"⟩, ⟨9, .deviceDisconnected "E"⟩]
          : List EventsResponseEntry).getLast (by decide)).id
    ∧ (getEvents ⟨[], [], [], 5⟩ [] ⟨[], []⟩ []).since = 5
    ∧ (5 : ℕ) ≤ (getEvents ⟨[], [], [], 5⟩
        [⟨7, .deviceDisconnected "D"⟩, ⟨9, .deviceDisconnected "E"⟩]
        ⟨[], []⟩ []).since :=
  ⟨(watermark_advance ⟨[], [], [], 5⟩ _ _ _).1 (by decide),
   (watermark_advance ⟨[], [], [], 5⟩ [] ⟨[], []⟩ []).2.1 rfl,
   (watermark_advance ⟨[], [], [], 5⟩ _ _ _).2.2 (by decide)⟩

theorem needDeviceRefresh_iff (s : RunnerState)
    (response : List EventsResponseEntry) :
    needDeviceRefresh s response = true
      ↔ ∃ entry ∈ response, ∃ c nb d f,
          entry.data = EventsResponseData.folderCompletion c nb d f
          ∧ AMap.contains s.devices d = false := by
  rw [needDeviceRefresh, List.any_eq_true]
  constructor
  · rintro ⟨item, hmem, hcond⟩
    rw [List.mem_filterMap] at hmem
    obtain ⟨entry, hent, hfe⟩ := hmem
    cases hdata : entry.data with
    | deviceDisconnected id =>
      rw [hdata] at hfe
      exact absurd hfe (by simp)
    | folderCompletion c nb d f =>
      rw [hdata] at hfe
      simp only [Option.some.injEq] at hfe
      subst hfe
      exact ⟨entry, hent, c, nb, d, f, hdata, by simpa using hcond⟩
  · rintro ⟨entry, hent, c, nb, d, f, hdata, hfalse⟩
    refine ⟨d, ?_, by simp [hfalse]⟩
    rw [List.mem_filterMap]
    exact ⟨entry, hent, by rw [hdata]⟩

theorem needFolderRefresh_iff (s : RunnerState)
    (response : List EventsResponseEntry) :
    needFolderRefresh s response = true
      ↔ ∃ entry ∈ response, ∃ c nb d f,
          entry.data = EventsResponseData.folderCompletion c nb d f
          ∧ AMap.contains s.folders f = false := by
  rw [needFolderRefresh, List.any_eq_true]
  constructor
  · rintro ⟨item, hmem, hcond⟩
    rw [List.mem_filterMap] at hmem
    obtain ⟨entry, hent, hfe⟩ := hmem
    cases hdata : entry.data with
    | deviceDisconnected id =>
      rw [hdata] at hfe
      exact absurd hfe (by simp)
    | folderCompletion c nb d f =>
      rw [hdata] at hfe
      simp only [Option.some.injEq] at hfe
      subst hfe
      exact ⟨entry, hent, c, nb, d, f, hdata, by simpa using hcond⟩
  · rintro ⟨entry, hent, c, nb, d, f, hdata, hfalse⟩
    refine ⟨f, ?_, by simp [hfalse]⟩
    rw [List.mem_filterMap]
    exact ⟨entry, hent, by rw [hdata]⟩

theorem fetchConfig_mem_iff (s : RunnerState)
    (response : List EventsResponseEntry) :
    ApiCall.fetchConfig ∈ getEventsCalls s response
      ↔ (needDeviceRefresh s response || needFolderRefresh s response) = true := by
  by_cases hneed : (needDeviceRefresh s response || needFolderRefresh s response) = true
  · simp [getEventsCalls, hneed]
  · simp [getEventsCalls, hneed]

/-- **C2**: the config fetch happens during a reconcile iff the batch
holds a `FolderCompletion` whose device id is missing from the device
cache or whose folder id is missing from the folder cache; at most one
config fetch happens per batch, and when it happens it is the step
right after the events fetch — before any event is applied to the
pending table. -/
theorem refreshTrigger_iff (s : RunnerState)
    (response : List EventsResponseEntry) :
    (ApiCall.fetchConfig ∈ getEventsCalls s response
      ↔ ∃ entry ∈ response, ∃ c nb d f,
          entry.data = EventsResponseData.folderCompletion c nb d f
          ∧ (AMap.contains s.devices d = false
              ∨ AMap.contains s.folders f = false))
    ∧ (getEventsCalls s response).count ApiCall.fetchConfig ≤ 1
    ∧ (ApiCall.fetchConfig ∈ getEventsCalls s response →
        getEventsCalls s response
          = ApiCall.fetchEvents :: ApiCall.fetchConfig ::
              (response.map ApiCall.applyEv ++ [ApiCall.fetchConnections])) := by
  have hmap : (response.map ApiCall.applyEv).count ApiCall.fetchConfig = 0 := by
    rw [List.count_eq_zero]
    intro hmem
    rw [List.mem_map] at hmem
    obtain ⟨e, _, he⟩ := hmem
    exact ApiCall.noConfusion he
  refine ⟨?_, ?_, ?_⟩
  · rw [fetchConfig_mem_iff, Bool.or_eq_true, needDeviceRefresh_iff,
      needFolderRefresh_iff]
    constructor
    · rintro (⟨entry, hent, c, nb, d, f, hdata, hfalse⟩
        | ⟨entry, hent, c, nb, d, f, hdata, hfalse⟩)
      · exact ⟨entry, hent, c, nb, d, f, hdata, Or.inl hfalse⟩
      · exact ⟨entry, hent, c, nb, d, f, hdata, Or.inr hfalse⟩
    · rintro ⟨entry, hent, c, nb, d, f, hdata, hfalse | hfalse⟩
      · exact Or.inl ⟨entry, hent, c, nb, d, f, hdata, hfalse⟩
      · exact Or.inr ⟨entry, hent, c, nb, d, f, hdata, hfalse⟩
  · rw [getEventsCalls]
    simp only [List.count_append, hmap]
    by_cases hneed : (needDeviceRefresh s response || needFolderRefresh s response) = true
    · rw [if_pos hneed]
      decide
    · rw [if_neg hneed]
      decide
  · intro h
    rw [fetchConfig_mem_iff] at h
    rw [getEventsCalls, if_pos h]
    rfl

/-- Witness for C2: with empty caches, a batch holding one
`FolderCompletion` for unknown ids triggers exactly one config fetch,
placed before the event application. -/
theorem refreshTrigger_iff_witness :
    ApiCall.fetchConfig
        ∈ getEventsCalls ⟨[], [], [], 0⟩
            [⟨1, .folderCompletion 50 5 "D1" "F1"⟩]
    ∧ getEventsCalls ⟨[], [], [], 0⟩ [⟨1, .folderCompletion 50 5 "D1" "F1"⟩]
        = [ApiCall.fetchEvents, ApiCall.fetchConfig,
            ApiCall.applyEv ⟨1, .folderCompletion 50 5 "D1" "F1"⟩,
            ApiCall.fetchConnections] :=
  have hmem : ApiCall.fetchConfig
      ∈ getEventsCalls ⟨[], [], [], 0⟩
          [⟨1, .folderCompletion 50 5 "D1" "F1"⟩] :=
    (refreshTrigger_iff ⟨[], [], [], 0⟩
        [⟨1, .folderCompletion 50 5 "D1" "F1"⟩]).1.mpr
      ⟨⟨1, .folderCompletion 50 5 "D1" "F1"⟩, by simp,
        50, 5, "D1", "F1", rfl, Or.inl rfl⟩
  ⟨hmem, by
    rw [(refreshTrigger_iff ⟨[], [], [], 0⟩
        [⟨1, .folderCompletion 50 5 "D1" "F1"⟩]).2.2 hmem]
    rfl⟩

theorem advanceSince_pending (s : RunnerState)
    (response : List EventsResponseEntry) :
    (advanceSince s response).pending = s.pending := rfl

/-- **C8**: an error on any of the three calls is returned to the
caller of the reconcile (never caught locally), ending `main_loop` at
once with no retry; mutations already performed stay in place — in
particular a connections-fetch failure happens after the batch was
applied and the watermark advanced, and both persist in the returned
state. -/
theorem errorPropagation (s : RunnerState)
    (response : List EventsResponseEntry) (config : SystemConfigResponse)
    (e : ApiError) :
    (∀ cfgRes connRes, getEventsE s (.error e) cfgRes connRes = (s, some e))
    ∧ ((needDeviceRefresh s response || needFolderRefresh s response) = true →
        ∀ connRes,
          getEventsE s (.ok response) (.error e) connRes = (s, some e))
    ∧ ((getEventsE s (.ok response) (.ok config) (.error e)).2 = some e
        ∧ (getEventsE s (.ok response) (.ok config) (.error e)).1.since
            = ((response.getLast?).map EventsResponseEntry.id).getD s.since
        ∧ (getEventsE s (.ok response) (.ok config) (.error e)).1.pending
            = (applyEvents
                (if (needDeviceRefresh s response
                      || needFolderRefresh s response) = true
                  then refreshDevicesAndFolders s config else s)
                response).pending)
    ∧ (∀ i rest s1, getEventsE s i.evRes i.cfgRes i.connRes = (s1, some e) →
        mainLoop s (i :: rest) = (s1, some e)) := by
  refine ⟨?_, ?_, ?_, ?_⟩
  · intro cfgRes connRes
    rfl
  · intro h connRes
    simp [getEventsE, h]
  · by_cases hneed :
      (needDeviceRefresh s response || needFolderRefresh s response) = true
    · refine ⟨?_, ?_, ?_⟩ <;>
        simp [getEventsE, hneed, getEventsRest, advanceSince,
          applyEvents_since, advanceSince_pending,
          refreshDevicesAndFolders_since]
    · refine ⟨?_, ?_, ?_⟩ <;>
        simp [getEventsE, hneed, getEventsRest, advanceSince,
          applyEvents_since, advanceSince_pending]
  · intro i rest s1 h
    simp [mainLoop, h]

/-- Witness for C8: the connections fetch fails after one event was
applied; the returned state keeps the inserted entry and watermark 1,
and the loop ends with that error even though more input was queued. -/
theorem errorPropagation_witness :
    (getEventsE RunnerState.new
        (.ok [⟨1, .folderCompletion 50 5 "D" "F"⟩])
        (.ok ⟨[("D", "dev")], [("F", "fold")]⟩)
        (.error .transport)).2 = some .transport
    ∧ (getEventsE RunnerState.new
        (.ok [⟨1, .folderCompletion 50 5 "D" "F"⟩])
        (.ok ⟨[("D", "dev")], [("F", "fold")]⟩)
        (.error .transport)).1.since = 1
    ∧ mainLoop RunnerState.new
        [⟨.ok [⟨1, .folderCompletion 50 5 "D" "F"⟩],
          .ok ⟨[("D", "dev")], [("F", "fold")]⟩, .error .transport⟩,
         ⟨.ok [], .ok ⟨[], []⟩, .ok []⟩]
      = (⟨[("D", "dev")], [("F", "fold")],
          [("D", [("F", ((50 : ℚ), 5))])], 1⟩, some .transport) :=
  ⟨(errorPropagation RunnerState.new
      [⟨1, .folderCompletion 50 5 "D" "F"⟩]
      ⟨[("D", "dev")], [("F", "fold")]⟩ .transport).2.2.1.1,
   by
    rw [(errorPropagation RunnerState.new
        [⟨1, .folderCompletion 50 5 "D" "F"⟩]
        ⟨[("D", "dev")], [("F", "fold")]⟩ .transport).2.2.1.2.1]
    decide,
   (errorPropagation RunnerState.new
      [⟨1, .folderCompletion 50 5 "D" "F"⟩]
      ⟨[("D", "dev")], [("F", "fold")]⟩ .transport).2.2.2
    ⟨.ok [⟨1, .folderCompletion 50 5 "D" "F"⟩],
      .ok ⟨[("D", "dev")], [("F", "fold")]⟩, .error .transport⟩
    [⟨.ok [], .ok ⟨[], []⟩, .ok []⟩]
    ⟨[("D", "dev")], [("F", "fold")], [("D", [("F", ((50 : ℚ), 5))])], 1⟩
    (by decide)⟩

theorem below100_applyEvent (s : RunnerState) (e : EventsResponseData)
    (hb : Below100 s) (hbd : EventBounded e) :
    Below100 (applyEvent s e) := by
  cases e with
  | deviceDisconnected id =>
    intro d row hrow f c nb hfind
    exact hb d row (AMap.find?_erase_subset s.pending id d row hrow) f c nb hfind
  | folderCompletion c0 nb0 dev fol =>
    by_cases hc : c0 = 100
    · intro d row hrow f c nb hfind
      simp only [applyEvent, if_pos hc] at hrow
      by_cases hd : d = dev
      · subst hd
        rw [AMap.find?_modify_self] at hrow
        cases hrow0 : AMap.find? s.pending d with
        | none => rw [hrow0] at hrow; exact absurd hrow (by simp)
        | some row0 =>
          rw [hrow0] at hrow
          simp only [Option.map_some', Option.some.injEq] at hrow
          subst hrow
          exact hb d row0 hrow0 f c nb
            (AMap.find?_erase_subset row0 fol f (c, nb) hfind)
      · rw [AMap.find?_modify_ne s.pending dev d _ hd] at hrow
        exact hb d row hrow f c nb hfind
    · intro d row hrow f c nb hfind
      simp only [applyEvent, if_neg hc] at hrow
      rcases AMap.find?_insert_cases s.pending dev d _ row hrow with
        ⟨hd, hrow'⟩ | hold
      · subst hd hrow'
        rcases AMap.find?_insert_cases _ fol f (c0, nb0) (c, nb) hfind with
          ⟨hf, hval⟩ | holdrow
        · obtain ⟨hbl, hbu⟩ := hbd
          have hcc : c = c0 := congrArg Prod.fst hval
          subst hcc
          exact lt_of_le_of_ne hbu hc
        · cases hrow0 : AMap.find? s.pending d with
          | none =>
            rw [hrow0] at holdrow
            exact absurd holdrow (by simp [AMap.empty, AMap.find?_nil])
          | some row0 =>
            rw [hrow0] at holdrow
            exact hb d row0 hrow0 f c nb holdrow
      · exact hb d row hold f c nb hfind

theorem below100_applyEvents (s : RunnerState)
    (response : List EventsResponseEntry)
    (hb : Below100 s) (hbb : BatchBounded response) :
    Below100 (applyEvents s response) := by
  induction response generalizing s with
  | nil => exact hb
  | cons entry rest ih =>
    have h1 : Below100 (applyEvent s entry.data) :=
      below100_applyEvent s entry.data hb (hbb entry (by simp))
    have h2 : BatchBounded rest := fun x hx => hbb x (by simp [hx])
    simpa [applyEvents] using ih (applyEvent s entry.data) h1 h2

theorem below100_refreshConnectedDevices (s : RunnerState)
    (connections : List (String × Bool)) (hb : Below100 s) :
    Below100 (refreshConnectedDevices s connections) := by
  intro d row hrow f c nb hfind
  rw [refreshConnectedDevices_find?] at hrow
  by_cases h : connections.any (fun p => p.1 = d ∧ p.2 = false) = true
  · rw [if_pos h] at hrow
    exact absurd hrow (by simp)
  · rw [if_neg h] at hrow
    exact hb d row hrow f c nb hfind

theorem refreshConnectedDevices_reported_false (s : RunnerState)
    (connections : List (String × Bool)) (d : String)
    (h : (d, false) ∈ connections) :
    AMap.find? (refreshConnectedDevices s connections).pending d = none := by
  rw [refreshConnectedDevices_find?, if_pos]
  simp only [List.any_eq_true]
  exact ⟨(d, false), h, by simp⟩

theorem below100_getEvents (s : RunnerState)
    (response : List EventsResponseEntry) (config : SystemConfigResponse)
    (connections : List (String × Bool))
    (hb : Below100 s) (hbb : BatchBounded response) :
    Below100 (getEvents s response config connections) := by
  refine below100_refreshConnectedDevices _ connections ?_
  have h1 : Below100 (if needDeviceRefresh s response
      || needFolderRefresh s response
      then refreshDevicesAndFolders s config else s) := by
    by_cases h : (needDeviceRefresh s response
        || needFolderRefresh s response) = true
    · rw [if_pos h]
      exact hb
    · rw [if_neg h]
      exact hb
  intro d row hrow f c nb hfind
  rw [advanceSince_pending] at hrow
  exact below100_applyEvents _ response h1 hbb d row hrow f c nb hfind

/-- **C6**: in every state reachable from the initial state by whole
reconcile iterations over in-bounds batches, every pending entry's
completion is strictly below 100; and right after a reconcile, any
device the connections response reported disconnected has no row —
entries are removed the instant completion reaches 100 (the
100-completion arm) or the device is observed disconnected (the
disconnect arm and the prune). -/
theorem pendingInvariant :
    (∀ s, Reachable s → Below100 s)
    ∧ (∀ (s : RunnerState) (response : List EventsResponseEntry)
        (config : SystemConfigResponse)
        (connections : List (String × Bool)) (d : String),
        (d, false) ∈ connections →
        AMap.find? (getEvents s response config connections).pending d
          = none) := by
  constructor
  · intro s hreach
    induction hreach with
    | new =>
      intro d row hrow f c nb hfind
      exact absurd hrow (by simp [RunnerState.new, AMap.empty, AMap.find?])
    | step s response config connections _ hbb ih =>
      exact below100_getEvents s response config connections ih hbb
  · intro s response config connections d h
    exact refreshConnectedDevices_reported_false _ connections d h

/-- Witness for C6: after one reconcile from the initial state the
lone pending entry sits strictly below 100, and a device reported
disconnected has no row after the iteration that observed it. -/
theorem pendingInvariant_witness :
    (50 : ℚ) < 100
    ∧ AMap.find?
        (getEvents RunnerState.new [] ⟨[], []⟩ [("D", false)]).pending "D"
      = none :=
  ⟨pendingInvariant.1
      (getEvents RunnerState.new [⟨1, .folderCompletion 50 10 "D" "F"⟩]
        ⟨[("D", "dev")], [("F", "fold")]⟩ [])
      (Reachable.step _ _ _ _ Reachable.new (by decide))
      "D" [("F", ((50 : ℚ), 10))] (by decide) "F" 50 10 (by decide),
   pendingInvariant.2 RunnerState.new [] ⟨[], []⟩ [("D", false)] "D"
     (by decide)⟩

theorem roundHalfEven_nearest (c : ℚ) :
    |c - (roundHalfEven c : ℚ)| ≤ 1/2 := by
  rw [roundHalfEven]
  have h0 : (⌊c⌋ : ℚ) ≤ c := Int.floor_le c
  have h1 : c < ⌊c⌋ + 1 := Int.lt_floor_add_one c
  by_cases ha : c - ⌊c⌋ < 1/2
  · rw [if_pos ha, abs_le]
    constructor <;> push_cast <;> linarith
  · rw [if_neg ha]
    by_cases hb : 1/2 < c - ⌊c⌋
    · rw [if_pos hb, abs_le]
      constructor <;> push_cast <;> linarith
    · rw [if_neg hb]
      have heq : c - ⌊c⌋ = 1/2 := le_antisymm (not_lt.1 hb) (not_lt.1 ha)
      by_cases hev : ⌊c⌋ % 2 = 0
      · rw [if_pos hev, abs_le]
        constructor <;> push_cast <;> linarith
      · rw [if_neg hev, abs_le]
        constructor <;> push_cast <;> linarith

theorem roundHalfEven_eq_round (c : ℚ) (h : c - ⌊c⌋ ≠ 1/2) :
    roundHalfEven c = round c := by
  rw [roundHalfEven, round_eq]
  have h0 : (⌊c⌋ : ℚ) ≤ c := Int.floor_le c
  have h1 : c < ⌊c⌋ + 1 := Int.lt_floor_add_one c
  by_cases ha : c - ⌊c⌋ < 1/2
  · rw [if_pos ha]
    symm
    rw [Int.floor_eq_iff]
    constructor <;> push_cast <;> linarith
  · rw [if_neg ha]
    have hb : 1/2 < c - ⌊c⌋ := lt_of_le_of_ne (not_lt.1 ha) (Ne.symm h)
    rw [if_pos hb]
    symm
    rw [Int.floor_eq_iff]
    constructor <;> push_cast <;> linarith

theorem tieAux427 : (427 : ℚ)/10 - ⌊(427 : ℚ)/10⌋ ≠ 1/2 := by norm_num

/-- **C9**: for a pending entry at completion `42.7` the status string
carries the floored component `"42"` and the tooltip line the rounded
component `"43"`; in general the status component is the floor of the
completion and the tooltip component is a round-to-nearest (ties to
even, as Rust's `{:.0}`), agreeing with `round` away from ties. -/
theorem completionFormatting :
    ProgressPct.display ((427 : ℚ)/10) = "42"
    ∧ fmtDot0 ((427 : ℚ)/10) = "43"
    ∧ statusText ⟨[], [], [("D", [("F", ((427 : ℚ)/10, 1048576))])], 0⟩
        = glyph ++ " 42%/1 MiB"
    ∧ tooltipText ⟨[], [], [("D", [("F", ((427 : ℚ)/10, 1048576))])], 0⟩
        = "D:         F          (43%, 1 MiB)"
    ∧ (∀ c : ℚ, ProgressPct.display c = toString ⌊c⌋)
    ∧ (∀ c : ℚ, |c - (roundHalfEven c : ℚ)| ≤ 1/2)
    ∧ (∀ c : ℚ, c - ⌊c⌋ ≠ 1/2 → roundHalfEven c = round c) := by
  have h1 : ProgressPct.display ((427 : ℚ)/10) = "42" := by
    rw [ProgressPct.display]
    norm_num
    decide
  have hrhe : fmtDot0 ((427 : ℚ)/10) = "43" := by
    rw [fmtDot0, roundHalfEven]
    norm_num
    decide
  have h2 : NeedBytes.display 1048576 = "1 MiB" := by
    rw [NeedBytes.display]
    norm_num
    rw [formatNumber]
    norm_num
    decide
  refine ⟨h1, hrhe, ?_, ?_, fun c => rfl, roundHalfEven_nearest, roundHalfEven_eq_round⟩
  · simp [statusText, h1, h2]
    decide
  · simp [tooltipText, hrhe, h2]
    decide

/-- Witness for C9: the divergence at 42.7 and the agreement of the
ties-to-even rounding with `round` away from the tie. -/
theorem completionFormatting_witness :
    ProgressPct.display ((427 : ℚ)/10) = "42"
    ∧ roundHalfEven ((427 : ℚ)/10) = round ((427 : ℚ)/10) :=
  ⟨completionFormatting.1,
   completionFormatting.2.2.2.2.2.2 ((427 : ℚ)/10) tieAux427⟩
